import Mathlib

/-
  Verification development for the xDS endpoint (EDS) resource decoding
  subsystem (src/core/ext/xds/xds_endpoint.cc) and the validation-error
  accumulator it uses.

  Shallow embedding conventions:
  * protobuf wire messages become Lean structures with `Option` for
    explicitly-presence-tracked submessages and wrappers;
  * uint32 arithmetic is `Nat` with `% 4294967296` at the operations where
    the C++ code can overflow;
  * the RAII `ValidationErrors::ScopedField` guards are represented by the
    fully concatenated field-path string threaded into each sub-parse: the
    path passed to `addError` is exactly the concatenation of the scopes
    active at the corresponding `AddError` call in the source;
  * the external random source (`rand()`) of `DropConfig::ShouldDrop` is a
    stream `draws : Nat → Nat` of its successive return values;
  * the external address resolver (`StringToSockaddr`, from
    parse_address.cc, outside this excerpt) is a function parameter
    `res : String → Nat → Except String (String × Nat)`.
-/

namespace GrpcCore

/-- Modelled from the spec: the `ValidationErrors` accumulator
(src/core/lib/gprpp/validation_errors.{h,cc} is not part of this excerpt;
only its callers and tests are).  Per the spec it is a mapping from
fully-qualified field path to the list of error messages recorded for that
path; we keep the association list sorted lexicographically by path so that
rendering traverses paths in sorted order.  `size` is the total error
count, `ok` holds iff no error was recorded, and `status` renders
`<pfx>: [field:<p> error:<msgs joined by comma-space>; ...]`. -/
structure ValidationErrors where
  field_errors : List (String × List String) := []
deriving DecidableEq

/-- Insert one message under one path into a path-sorted association list,
creating the path's entry if absent and appending to it otherwise. -/
def insertError : List (String × List String) → String → String → List (String × List String)
  | [], p, m => [(p, [m])]
  | (q, ms) :: rest, p, m =>
    if p = q then (q, ms ++ [m]) :: rest
    else if p < q then (p, [m]) :: (q, ms) :: rest
    else (q, ms) :: insertError rest p m

def ValidationErrors.addError (e : ValidationErrors) (path msg : String) : ValidationErrors :=
  ⟨insertError e.field_errors path msg⟩

def ValidationErrors.size (e : ValidationErrors) : Nat :=
  (e.field_errors.map (fun pm => pm.2.length)).sum

def ValidationErrors.ok (e : ValidationErrors) : Bool :=
  e.field_errors.isEmpty

def ValidationErrors.status (e : ValidationErrors) (pfx : String) : String :=
  pfx ++ (": [") ++
    String.intercalate ("; ")
      (e.field_errors.map fun pm =>
        ("field:") ++ pm.1 ++ (" error:") ++ String.intercalate (", ") pm.2) ++
    ("]")

/-- Does the accumulator hold message `msg` under path `path`? -/
def ValidationErrors.hasError (e : ValidationErrors) (path msg : String) : Bool :=
  e.field_errors.any fun pm => pm.1 == path && pm.2.contains msg

/-
  Wire-message model (envoy protobuf types, as read through the upb
  accessors used by xds_endpoint.cc).
-/

/-- google.protobuf.UInt32Value wrapper. -/
structure UInt32Value where
  value : Nat
deriving DecidableEq

/-- envoy.config.core.v3.SocketAddress (the two fields the parser reads). -/
structure SocketAddress where
  address : String
  port_value : Nat
deriving DecidableEq

/-- envoy.config.core.v3.Address (only the socket_address arm is read). -/
structure AddressMsg where
  socket_address : Option SocketAddress
deriving DecidableEq

/-- envoy.config.endpoint.v3.Endpoint (only the address field is read). -/
structure EndpointMsg where
  address : Option AddressMsg
deriving DecidableEq

/-- envoy.config.core.v3 health status enum values used by the parser. -/
def envoy_UNKNOWN : Int := 0

def envoy_HEALTHY : Int := 1

/-- envoy.config.endpoint.v3.LbEndpoint. -/
structure LbEndpoint where
  health_status : Int
  load_balancing_weight : Option UInt32Value
  endpoint : Option EndpointMsg
deriving DecidableEq

/-- envoy.config.core.v3.Locality. -/
structure LocalityMsg where
  region : String
  zone : String
  sub_zone : String
deriving DecidableEq

/-- envoy.config.endpoint.v3.LocalityLbEndpoints. -/
structure LocalityLbEndpoints where
  load_balancing_weight : Option UInt32Value
  locality : Option LocalityMsg
  lb_endpoints : List LbEndpoint
  priority : Nat
deriving DecidableEq

/-- envoy.type.v3.FractionalPercent: uint32 numerator plus denominator enum. -/
structure FractionalPercent where
  numerator : Nat
  denominator : Int
deriving DecidableEq

def FractionalPercent_HUNDRED : Int := 0

def FractionalPercent_TEN_THOUSAND : Int := 1

def FractionalPercent_MILLION : Int := 2

/-- envoy.config.endpoint.v3.ClusterLoadAssignment.Policy.DropOverload. -/
structure DropOverload where
  category : String
  drop_percentage : Option FractionalPercent
deriving DecidableEq

/-- envoy.config.endpoint.v3.ClusterLoadAssignment.Policy (the parser only
reads drop_overloads). -/
structure ClaPolicy where
  drop_overloads : List DropOverload
deriving DecidableEq

/-- envoy.config.endpoint.v3.ClusterLoadAssignment. -/
structure ClusterLoadAssignment where
  cluster_name : String
  endpoints : List LocalityLbEndpoints
  policy : Option ClaPolicy
deriving DecidableEq

/-
  Parsed-resource model (XdsEndpointResource and its parts).
-/

/-- XdsLocalityName: the value-comparable {region, zone, sub_zone} triple. -/
structure XdsLocalityName where
  region : String
  zone : String
  sub_zone : String
deriving DecidableEq

/-- Modelled from the spec: `XdsLocalityName::AsHumanReadableString`
(declared in the xDS client headers, not in this excerpt) renders the
locality name triple in a human-readable form naming all three parts. -/
def XdsLocalityName.asHumanReadableString (n : XdsLocalityName) : String :=
  ("region=") ++ n.region ++ (" zone=") ++ n.zone ++ (" sub_zone=") ++ n.sub_zone

/-- ServerAddress: the resolved socket address (modelled as the
host/port pair handed to the resolver) plus the weight carried as the
`ServerAddressWeightAttribute`. -/
structure ServerAddress where
  address : String × Nat
  weight : Nat
deriving DecidableEq

/-- XdsEndpointResource::Priority::Locality. -/
structure XdsEndpointResource.Priority.Locality where
  name : XdsLocalityName
  lb_weight : Nat
  endpoints : List ServerAddress
deriving DecidableEq

/-- XdsEndpointResource::Priority: a map from locality name to locality,
kept as an association list sorted by the (region, zone, sub_zone)
ordering used by `XdsLocalityName::Less`. -/
structure XdsEndpointResource.Priority where
  localities : List (XdsLocalityName × XdsEndpointResource.Priority.Locality) := []
deriving DecidableEq

/-- The ordering on locality names used by the std::map in Priority. -/
def localityNameLt (a b : XdsLocalityName) : Bool :=
  a.region < b.region ||
    (a.region == b.region &&
      (a.zone < b.zone || (a.zone == b.zone && a.sub_zone < b.sub_zone)))

def lookupLocality :
    List (XdsLocalityName × XdsEndpointResource.Priority.Locality) →
    XdsLocalityName → Option XdsEndpointResource.Priority.Locality
  | [], _ => none
  | (k, v) :: rest, n => if k = n then some v else lookupLocality rest n

def insertLocality :
    List (XdsLocalityName × XdsEndpointResource.Priority.Locality) →
    XdsLocalityName → XdsEndpointResource.Priority.Locality →
    List (XdsLocalityName × XdsEndpointResource.Priority.Locality)
  | [], n, l => [(n, l)]
  | (k, v) :: rest, n, l =>
    if localityNameLt n k then (n, l) :: (k, v) :: rest
    else (k, v) :: insertLocality rest n l

/-- One drop category: name plus parts-per-million threshold. -/
structure DropCategory where
  name : String
  parts_per_million : Nat
deriving DecidableEq

/-- XdsEndpointResource::DropConfig. -/
structure DropConfig where
  drop_category_list : List DropCategory := []
  drop_all : Bool := false
deriving DecidableEq

/-- Modelled from the spec: `DropConfig::AddCategory` (declared in
xds_endpoint.h, not in this excerpt) appends the category to the ordered
list and raises the drop-all flag when the threshold is 1,000,000 ppm. -/
def DropConfig.addCategory (cfg : DropConfig) (name : String) (ppm : Nat) : DropConfig :=
  { drop_category_list := cfg.drop_category_list ++ [⟨name, ppm⟩],
    drop_all := cfg.drop_all || (ppm == 1000000) }

/-- The loop body of `DropConfig::ShouldDrop`: for each category in stored
order, draw the next value of the random stream, cast it to uint32 and
reduce it modulo 1,000,000; the first category whose threshold exceeds its
own draw wins and its name is returned. -/
def ShouldDropList : List DropCategory → (Nat → Nat) → Option String
  | [], _ => none
  | c :: rest, draws =>
    let random := draws 0 % 4294967296 % 1000000
    if random < c.parts_per_million then some c.name
    else ShouldDropList rest (fun k => draws (k + 1))

/-- XdsEndpointResource::DropConfig::ShouldDrop, with the successive
`rand()` results supplied as the stream `draws`.  `some name` models
returning true with `*category_name = name`; `none` models returning
false. -/
def DropConfig.shouldDrop (cfg : DropConfig) (draws : Nat → Nat) : Option String :=
  ShouldDropList cfg.drop_category_list draws

/-- XdsEndpointResource. -/
structure XdsEndpointResource where
  priorities : List XdsEndpointResource.Priority
  drop_config : DropConfig
deriving DecidableEq

/-
  The parse functions of xds_endpoint.cc.
-/

/-- ServerAddressParse: skips (without error) endpoints whose health status
is neither UNKNOWN nor HEALTHY; validates the weight wrapper, the
endpoint/address/socket_address chain and the port range; resolves the
host/port through the external resolver `res`; on success attaches the
weight to the produced address. -/
def ServerAddressParse (res : String → Nat → Except String (String × Nat))
    (path : String) (lb_endpoint : LbEndpoint) (errors : ValidationErrors) :
    Option ServerAddress × ValidationErrors :=
  if lb_endpoint.health_status ≠ envoy_UNKNOWN ∧
      lb_endpoint.health_status ≠ envoy_HEALTHY then
    (none, errors)
  else
    let weightStep : Nat × ValidationErrors :=
      match lb_endpoint.load_balancing_weight with
      | none => (1, errors)
      | some w =>
        if w.value = 0 then
          (w.value, errors.addError (path ++ (".load_balancing_weight")) ("must be greater than 0"))
        else (w.value, errors)
    let weight := weightStep.1
    let errors := weightStep.2
    match lb_endpoint.endpoint with
    | none => (none, errors.addError (path ++ (".endpoint")) ("field not present"))
    | some ep =>
      match ep.address with
      | none => (none, errors.addError (path ++ (".endpoint.address")) ("field not present"))
      | some addr =>
        match addr.socket_address with
        | none =>
          (none, errors.addError (path ++ (".endpoint.address.socket_address")) ("field not present"))
        | some sa =>
          if 65536 ≤ sa.port_value then
            (none,
             errors.addError (path ++ (".endpoint.address.socket_address.port_value")) ("invalid port"))
          else
            match res sa.address sa.port_value with
            | Except.error m =>
              (some ⟨(("" : String), 0), weight⟩,
               errors.addError (path ++ (".endpoint.address.socket_address")) m)
            | Except.ok a => (some ⟨a, weight⟩, errors)

/-- The result pair of LocalityParse. -/
structure ParsedLocality where
  priority : Nat
  locality : XdsEndpointResource.Priority.Locality
deriving DecidableEq

/-- The lb_endpoints loop inside LocalityParse: parse each endpoint under
the scope `.lb_endpoints[i]`, collecting the produced addresses. -/
def parseLbEndpoints (res : String → Nat → Except String (String × Nat))
    (path : String) (lbs : List LbEndpoint) (i : Nat)
    (acc : List ServerAddress) (errors : ValidationErrors) :
    List ServerAddress × ValidationErrors :=
  match lbs with
  | [] => (acc, errors)
  | lb :: rest =>
    let step :=
      ServerAddressParse res (path ++ (".lb_endpoints[") ++ toString i ++ ("]")) lb errors
    let acc :=
      match step.1 with
      | some x => acc ++ [x]
      | none => acc
    parseLbEndpoints res path rest (i + 1) acc step.2

/-- LocalityParse: a locality whose weight wrapper is absent or zero is
skipped without error; a missing locality name is an error; the endpoints
are parsed in order; finally the locality is returned only when the error
count is unchanged by this whole sub-parse. -/
def LocalityParse (res : String → Nat → Except String (String × Nat))
    (path : String) (lle : LocalityLbEndpoints) (errors : ValidationErrors) :
    Option ParsedLocality × ValidationErrors :=
  let original_error_size := errors.size
  let lb_weight :=
    match lle.load_balancing_weight with
    | some w => w.value
    | none => 0
  if lb_weight = 0 then (none, errors)
  else
    match lle.locality with
    | none => (none, errors.addError (path ++ (".locality")) ("field not present"))
    | some loc =>
      let name : XdsLocalityName := ⟨loc.region, loc.zone, loc.sub_zone⟩
      let eps := parseLbEndpoints res path lle.lb_endpoints 0 [] errors
      if original_error_size ≠ eps.2.size then (none, eps.2)
      else (some ⟨lle.priority, ⟨name, lb_weight, eps.1⟩⟩, eps.2)

/-- DropParseAndAppend: an empty category name is an error (but does not
abort the insertion); a missing drop_percentage aborts; the numerator is
normalized to parts-per-million by the denominator (uint32 multiply, so
modulo 2^32), an unknown denominator is an error; the result is capped at
1,000,000 and appended to the drop config. -/
def DropParseAndAppend (path : String) (drop_overload : DropOverload)
    (drop_config : DropConfig) (errors : ValidationErrors) :
    DropConfig × ValidationErrors :=
  let category := drop_overload.category
  let errors :=
    if category = ("" : String) then
      errors.addError (path ++ (".category")) ("empty drop category name")
    else errors
  match drop_overload.drop_percentage with
  | none => (drop_config, errors.addError (path ++ (".drop_percentage")) ("field not present"))
  | some drop_percentage =>
    let numerator := drop_percentage.numerator
    let normStep : Nat × ValidationErrors :=
      if drop_percentage.denominator = FractionalPercent_HUNDRED then
        (numerator * 10000 % 4294967296, errors)
      else if drop_percentage.denominator = FractionalPercent_TEN_THOUSAND then
        (numerator * 100 % 4294967296, errors)
      else if drop_percentage.denominator = FractionalPercent_MILLION then
        (numerator, errors)
      else
        (numerator,
         errors.addError (path ++ (".drop_percentage.denominator")) ("unknown denominator type"))
    let numerator := min normStep.1 1000000
    (drop_config.addCategory category numerator, normStep.2)

/-- One iteration of the endpoints loop in EdsResourceParse: parse the i-th
LocalityLbEndpoints under scope `endpoints[i]`; when a locality is
produced, grow the priorities vector as needed, report a duplicate
locality name within the priority (keeping the first occurrence), and
otherwise insert the locality into its priority's map. -/
def edsEntryStep (res : String → Nat → Except String (String × Nat)) (i : Nat)
    (lle : LocalityLbEndpoints) (priorities : List XdsEndpointResource.Priority)
    (errors : ValidationErrors) :
    List XdsEndpointResource.Priority × ValidationErrors :=
  let path := ("endpoints[") ++ toString i ++ ("]")
  let parsed := LocalityParse res path lle errors
  match parsed.1 with
  | none => (priorities, parsed.2)
  | some pl =>
    let priorities :=
      if priorities.length < pl.priority + 1 then
        priorities ++ List.replicate (pl.priority + 1 - priorities.length) ⟨[]⟩
      else priorities
    let pr := priorities.getD pl.priority ⟨[]⟩
    match lookupLocality pr.localities pl.locality.name with
    | some _ =>
      (priorities,
       parsed.2.addError path
         (("duplicate locality ") ++ pl.locality.name.asHumanReadableString ++
          (" found in priority ") ++ toString pl.priority))
    | none =>
      (priorities.set pl.priority ⟨insertLocality pr.localities pl.locality.name pl.locality⟩,
       parsed.2)

/-- The endpoints loop of EdsResourceParse. -/
def edsEntriesLoop (res : String → Nat → Except String (String × Nat))
    (lles : List LocalityLbEndpoints) (i : Nat)
    (priorities : List XdsEndpointResource.Priority) (errors : ValidationErrors) :
    List XdsEndpointResource.Priority × ValidationErrors :=
  match lles with
  | [] => (priorities, errors)
  | lle :: rest =>
    let step := edsEntryStep res i lle priorities errors
    edsEntriesLoop res rest (i + 1) step.1 step.2

/-- The empty-priority scan of EdsResourceParse: any priority level with no
locality records `priority <i> empty` under the `endpoints` scope. -/
def checkEmptyPriorities (priorities : List XdsEndpointResource.Priority) (i : Nat)
    (errors : ValidationErrors) : ValidationErrors :=
  match priorities with
  | [] => errors
  | p :: rest =>
    let errors :=
      if p.localities.isEmpty then
        errors.addError ("endpoints") (("priority ") ++ toString i ++ (" empty"))
      else errors
    checkEmptyPriorities rest (i + 1) errors

/-- The drop_overloads loop of EdsResourceParse, under the `policy` scope. -/
def dropOverloadsLoop (ds : List DropOverload) (i : Nat) (cfg : DropConfig)
    (errors : ValidationErrors) : DropConfig × ValidationErrors :=
  match ds with
  | [] => (cfg, errors)
  | d :: rest =>
    let step :=
      DropParseAndAppend (("policy.drop_overloads[") ++ toString i ++ ("]")) d cfg errors
    dropOverloadsLoop rest (i + 1) step.1 step.2

/-- EdsResourceParse: process every LocalityLbEndpoints entry, reject empty
priority levels, parse the drop policy, and fail with the aggregated
status (prefixed `errors parsing EDS resource`) iff any error was
recorded; on failure no partial resource is returned. -/
def EdsResourceParse (res : String → Nat → Except String (String × Nat))
    (cla : ClusterLoadAssignment) : Except String XdsEndpointResource :=
  let errors : ValidationErrors := ⟨[]⟩
  let loopOut := edsEntriesLoop res cla.endpoints 0 [] errors
  let errors := checkEmptyPriorities loopOut.1 0 loopOut.2
  let dropOut : DropConfig × ValidationErrors :=
    match cla.policy with
    | none => (({} : DropConfig), errors)
    | some policy => dropOverloadsLoop policy.drop_overloads 0 ({} : DropConfig) errors
  if dropOut.2.ok then Except.ok ⟨loopOut.1, dropOut.1⟩
  else Except.error (dropOut.2.status ("errors parsing EDS resource"))

/-- The status-code half of an absl::Status as far as this layer uses it. -/
inductive StatusCode
  | kOk
  | kInvalidArgument
deriving DecidableEq

deriving instance DecidableEq for Except

/-- XdsResourceType::DecodeResult for the endpoint resource type. -/
structure DecodeResult where
  name : Option String
  resource : Except (StatusCode × String) XdsEndpointResource
deriving DecidableEq

/-- XdsEndpointResourceType::Decode: the wire-format parse of the
serialized bytes (done by upb, outside this excerpt) is supplied as
`wire`; `none` models a byte string that does not parse as a
ClusterLoadAssignment, in which case the fixed unparseable message is
returned and the name is left absent; otherwise the cluster name is
extracted before semantic validation runs. -/
def XdsEndpointResourceType.Decode (res : String → Nat → Except String (String × Nat))
    (wire : Option ClusterLoadAssignment) : DecodeResult :=
  match wire with
  | none =>
    ⟨none,
     Except.error (StatusCode.kInvalidArgument, ("Can't parse ClusterLoadAssignment resource."))⟩
  | some cla =>
    let name := some cla.cluster_name
    match EdsResourceParse res cla with
    | Except.error msg => ⟨name, Except.error (StatusCode.kInvalidArgument, msg)⟩
    | Except.ok r => ⟨name, Except.ok r⟩

/-- Modelled from the spec: `ParseDuration` (xds_common_types.cc is not in
this excerpt; xds_common_types_test.cc is).  seconds must lie in
[0, 315576000000] and nanos in [0, 999999999]; each violation is recorded
as its own field error (no short-circuit), and the value is combined as
milliseconds = seconds*1000 + nanos/1000000. -/
def ParseDuration (seconds : Int) (nanos : Int) (errors : ValidationErrors) :
    Int × ValidationErrors :=
  let errors :=
    if seconds < 0 ∨ 315576000000 < seconds then
      errors.addError ("seconds") ("value must be in the range [0, 315576000000]")
    else errors
  let errors :=
    if nanos < 0 ∨ 999999999 < nanos then
      errors.addError ("nanos") ("value must be in the range [0, 999999999]")
    else errors
  (seconds * 1000 + nanos / 1000000, errors)

/-
  Helper lemmas about the accumulator.
-/

theorem insertError_ne_nil (l : List (String × List String)) (p m : String) :
    insertError l p m ≠ [] := by
  match l with
  | [] => simp [insertError]
  | (q, ms) :: rest =>
    simp only [insertError]
    split
    · simp
    · split <;> simp

theorem sumLens_insertError (l : List (String × List String)) (p m : String) :
    ((insertError l p m).map fun pm => pm.2.length).sum =
      ((l.map fun pm => pm.2.length)).sum + 1 := by
  induction l with
  | nil => simp [insertError]
  | cons hd tl ih =>
    obtain ⟨q, ms⟩ := hd
    simp only [insertError]
    split
    · simp [Nat.add_assoc, Nat.add_comm 1]
    · split
      · simp [Nat.add_assoc, Nat.add_comm 1, Nat.add_left_comm]
      · simp [ih, Nat.add_assoc]

theorem size_addError (e : ValidationErrors) (p m : String) :
    (e.addError p m).size = e.size + 1 := by
  simp [ValidationErrors.addError, ValidationErrors.size, sumLens_insertError]

theorem mem_insertError (l : List (String × List String)) (p m : String) :
    ∀ x ∈ insertError l p m, x.1 = p ∨ ∃ y ∈ l, x.1 = y.1 := by
  induction l with
  | nil => simp [insertError]
  | cons hd tl ih =>
    obtain ⟨q, ms⟩ := hd
    simp only [insertError]
    split
    · intro x hx
      rcases List.mem_cons.mp hx with h | h
      · subst h; right; exact ⟨(q, ms), List.mem_cons_self _ _, rfl⟩
      · right; exact ⟨x, List.mem_cons_of_mem _ h, rfl⟩
    · split
      · intro x hx
        rcases List.mem_cons.mp hx with h | h
        · subst h; left; rfl
        · rcases List.mem_cons.mp h with h2 | h2
          · subst h2; right; exact ⟨(q, ms), List.mem_cons_self _ _, rfl⟩
          · right; exact ⟨x, List.mem_cons_of_mem _ h2, rfl⟩
      · intro x hx
        rcases List.mem_cons.mp hx with h | h
        · subst h; right; exact ⟨(q, ms), List.mem_cons_self _ _, rfl⟩
        · rcases ih x h with h2 | h2
          · left; exact h2
          · obtain ⟨y, hy, hxy⟩ := h2
            right; exact ⟨y, List.mem_cons_of_mem _ hy, hxy⟩

theorem anyHas_insertError_self (l : List (String × List String)) (p m : String) :
    (insertError l p m).any (fun pm => pm.1 == p && pm.2.contains m) = true := by
  induction l with
  | nil => simp [insertError]
  | cons hd tl ih =>
    obtain ⟨q, ms⟩ := hd
    simp only [insertError]
    split
    · next hpq =>
      subst hpq
      simp [List.any_cons]
    · split
      · simp [List.any_cons]
      · simp only [List.any_cons, ih, Bool.or_true]

theorem contains_append_one (ms : List String) (m n : String)
    (h : ms.contains m = true) : (ms ++ [n]).contains m = true := by
  simp at h ⊢
  exact Or.inl h

theorem anyHas_insertError_of (l : List (String × List String)) (p m q n : String)
    (h : l.any (fun pm => pm.1 == p && pm.2.contains m) = true) :
    (insertError l q n).any (fun pm => pm.1 == p && pm.2.contains m) = true := by
  induction l with
  | nil => simp at h
  | cons hd tl ih =>
    obtain ⟨r, ms⟩ := hd
    simp only [insertError]
    split
    · next hqr =>
      subst hqr
      rw [List.any_cons, Bool.or_eq_true] at h ⊢
      rcases h with h | h
      · left
        rw [Bool.and_eq_true] at h ⊢
        exact ⟨h.1, contains_append_one ms m n h.2⟩
      · right; exact h
    · split
      · rw [List.any_cons, Bool.or_eq_true]
        right; exact h
      · rw [List.any_cons, Bool.or_eq_true] at h
        rw [List.any_cons, Bool.or_eq_true]
        rcases h with h | h
        · left; exact h
        · right; exact ih h

theorem hasError_addError_self (e : ValidationErrors) (p m : String) :
    (e.addError p m).hasError p m = true := by
  simp only [ValidationErrors.addError, ValidationErrors.hasError]
  exact anyHas_insertError_self e.field_errors p m

theorem hasError_addError_of (e : ValidationErrors) (p m q n : String)
    (h : e.hasError p m = true) : (e.addError q n).hasError p m = true := by
  simp only [ValidationErrors.addError, ValidationErrors.hasError] at h ⊢
  exact anyHas_insertError_of e.field_errors p m q n h

/-- Well-formedness of the accumulator state: the association list is
strictly sorted by path and no entry has an empty message list. -/
def VEInv (e : ValidationErrors) : Prop :=
  e.field_errors.Pairwise (fun a b => a.1 < b.1) ∧ ∀ pm ∈ e.field_errors, pm.2 ≠ []

theorem VEInv_empty : VEInv ⟨[]⟩ := by
  constructor
  · exact List.Pairwise.nil
  · intro pm h; simp at h

theorem inv_insertError (l : List (String × List String)) (p m : String)
    (hs : l.Pairwise (fun a b => a.1 < b.1)) (hn : ∀ pm ∈ l, pm.2 ≠ []) :
    (insertError l p m).Pairwise (fun a b => a.1 < b.1) ∧
      ∀ pm ∈ insertError l p m, pm.2 ≠ [] := by
  induction l with
  | nil =>
    constructor
    · simp [insertError]
    · intro pm hpm
      simp [insertError] at hpm
      simp [hpm]
  | cons hd tl ih =>
    obtain ⟨q, ms⟩ := hd
    rw [List.pairwise_cons] at hs
    obtain ⟨hhead, htl⟩ := hs
    simp only [insertError]
    split
    · next hpq =>
      constructor
      · rw [List.pairwise_cons]
        exact ⟨hhead, htl⟩
      · intro pm hpm
        rcases List.mem_cons.mp hpm with h | h
        · subst h; simp
        · exact hn pm (List.mem_cons_of_mem _ h)
    · split
      · next hlt =>
        constructor
        · rw [List.pairwise_cons]
          constructor
          · intro b hb
            rcases List.mem_cons.mp hb with h | h
            · subst h; exact hlt
            · exact lt_trans hlt (hhead b h)
          · rw [List.pairwise_cons]
            exact ⟨hhead, htl⟩
        · intro pm hpm
          rcases List.mem_cons.mp hpm with h | h
          · subst h; simp
          · rcases List.mem_cons.mp h with h2 | h2
            · subst h2; exact hn (q, ms) (List.mem_cons_self _ _)
            · exact hn pm (List.mem_cons_of_mem _ h2)
      · next hne hnlt =>
        have hqp : q < p := by
          rcases lt_trichotomy (α := String) p q with h | h | h
          · exact absurd h hnlt
          · exact absurd h hne
          · exact h
        obtain ⟨ihs, ihn⟩ := ih htl (fun pm hpm => hn pm (List.mem_cons_of_mem _ hpm))
        constructor
        · rw [List.pairwise_cons]
          constructor
          · intro b hb
            rcases mem_insertError tl p m b hb with h | h
            · rw [h]; exact hqp
            · obtain ⟨y, hy, hxy⟩ := h
              rw [hxy]
              exact hhead y hy
          · exact ihs
        · intro pm hpm
          rcases List.mem_cons.mp hpm with h | h
          · subst h; exact hn (q, ms) (List.mem_cons_self _ _)
          · exact ihn pm h

theorem VEInv_addError (e : ValidationErrors) (p m : String) (h : VEInv e) :
    VEInv (e.addError p m) :=
  inv_insertError e.field_errors p m h.1 h.2

/-- `Evolves e e'` holds when `e'` is obtained from `e` by recording zero or
more further errors; every parse step only evolves the accumulator. -/
inductive Evolves : ValidationErrors → ValidationErrors → Prop
  | refl (e : ValidationErrors) : Evolves e e
  | step (e : ValidationErrors) (p m : String) (e' : ValidationErrors) :
      Evolves (e.addError p m) e' → Evolves e e'

theorem Evolves.addError (e : ValidationErrors) (p m : String) :
    Evolves e (e.addError p m) :=
  Evolves.step e p m _ (Evolves.refl _)

theorem Evolves.trans {a b c : ValidationErrors}
    (h1 : Evolves a b) (h2 : Evolves b c) : Evolves a c := by
  induction h1 with
  | refl => exact h2
  | step e p m e' _ ih => exact Evolves.step e p m _ (ih h2)

theorem Evolves.size_le {a b : ValidationErrors} (h : Evolves a b) :
    a.size ≤ b.size := by
  induction h with
  | refl => exact le_refl _
  | step e p m e' _ ih =>
    have := size_addError e p m
    omega

theorem Evolves.hasError_le {a b : ValidationErrors} (h : Evolves a b)
    (p m : String) (hp : a.hasError p m = true) : b.hasError p m = true := by
  induction h with
  | refl => exact hp
  | step e q n e' _ ih => exact ih (hasError_addError_of e p m q n hp)

theorem Evolves.inv {a b : ValidationErrors} (h : Evolves a b) (hi : VEInv a) :
    VEInv b := by
  induction h with
  | refl => exact hi
  | step e p m e' _ ih => exact ih (VEInv_addError e p m hi)

theorem Evolves.ne_nil {a b : ValidationErrors} (h : Evolves a b)
    (hn : a.field_errors ≠ []) : b.field_errors ≠ [] := by
  induction h with
  | refl => exact hn
  | step e p m e' _ ih =>
    exact ih (insertError_ne_nil e.field_errors p m)

theorem hasError_ne_nil (e : ValidationErrors) (p m : String)
    (h : e.hasError p m = true) : e.field_errors ≠ [] := by
  intro hnil
  simp [ValidationErrors.hasError, hnil] at h

theorem evolves_ServerAddressParse (res : String → Nat → Except String (String × Nat))
    (path : String) (lb : LbEndpoint) (errors : ValidationErrors) :
    Evolves errors (ServerAddressParse res path lb errors).2 := by
  unfold ServerAddressParse
  dsimp only
  repeat' split
  all_goals
    first
    | exact Evolves.refl _
    | exact Evolves.addError _ _ _
    | exact (Evolves.addError _ _ _).trans (Evolves.addError _ _ _)

theorem evolves_parseLbEndpoints (res : String → Nat → Except String (String × Nat))
    (path : String) (lbs : List LbEndpoint) :
    ∀ (i : Nat) (acc : List ServerAddress) (errors : ValidationErrors),
      Evolves errors (parseLbEndpoints res path lbs i acc errors).2 := by
  induction lbs with
  | nil => intro i acc errors; exact Evolves.refl _
  | cons lb rest ih =>
    intro i acc errors
    unfold parseLbEndpoints
    dsimp only
    exact (evolves_ServerAddressParse res _ lb errors).trans (ih _ _ _)

theorem evolves_LocalityParse (res : String → Nat → Except String (String × Nat))
    (path : String) (lle : LocalityLbEndpoints) (errors : ValidationErrors) :
    Evolves errors (LocalityParse res path lle errors).2 := by
  unfold LocalityParse
  dsimp only
  repeat' split
  all_goals
    first
    | exact Evolves.refl _
    | exact Evolves.addError _ _ _
    | exact evolves_parseLbEndpoints res path lle.lb_endpoints 0 [] errors

theorem evolves_DropParseAndAppend (path : String) (d : DropOverload)
    (cfg : DropConfig) (errors : ValidationErrors) :
    Evolves errors (DropParseAndAppend path d cfg errors).2 := by
  unfold DropParseAndAppend
  dsimp only
  repeat' split
  all_goals
    first
    | exact Evolves.refl _
    | exact Evolves.addError _ _ _
    | exact (Evolves.addError _ _ _).trans (Evolves.addError _ _ _)

theorem evolves_edsEntryStep (res : String → Nat → Except String (String × Nat))
    (i : Nat) (lle : LocalityLbEndpoints)
    (priorities : List XdsEndpointResource.Priority) (errors : ValidationErrors) :
    Evolves errors (edsEntryStep res i lle priorities errors).2 := by
  unfold edsEntryStep
  dsimp only
  repeat' split
  all_goals
    first
    | exact evolves_LocalityParse res _ lle errors
    | exact (evolves_LocalityParse res _ lle errors).trans (Evolves.addError _ _ _)

theorem evolves_edsEntriesLoop (res : String → Nat → Except String (String × Nat))
    (lles : List LocalityLbEndpoints) :
    ∀ (i : Nat) (priorities : List XdsEndpointResource.Priority)
      (errors : ValidationErrors),
      Evolves errors (edsEntriesLoop res lles i priorities errors).2 := by
  induction lles with
  | nil => intro i priorities errors; exact Evolves.refl _
  | cons lle rest ih =>
    intro i priorities errors
    unfold edsEntriesLoop
    dsimp only
    exact (evolves_edsEntryStep res i lle priorities errors).trans (ih _ _ _)

theorem evolves_checkEmptyPriorities (priorities : List XdsEndpointResource.Priority) :
    ∀ (i : Nat) (errors : ValidationErrors),
      Evolves errors (checkEmptyPriorities priorities i errors) := by
  induction priorities with
  | nil => intro i errors; exact Evolves.refl _
  | cons p rest ih =>
    intro i errors
    unfold checkEmptyPriorities
    dsimp only
    split
    · exact (Evolves.addError _ _ _).trans (ih _ _)
    · exact ih _ _

theorem evolves_dropOverloadsLoop (ds : List DropOverload) :
    ∀ (i : Nat) (cfg : DropConfig) (errors : ValidationErrors),
      Evolves errors (dropOverloadsLoop ds i cfg errors).2 := by
  induction ds with
  | nil => intro i cfg errors; exact Evolves.refl _
  | cons d rest ih =>
    intro i cfg errors
    unfold dropOverloadsLoop
    dsimp only
    exact (evolves_DropParseAndAppend _ d cfg errors).trans (ih _ _ _)

/-
  A component-wise characterization of EdsResourceParse, used to reason
  about its result.
-/

def edsLoopOut (res : String → Nat → Except String (String × Nat))
    (cla : ClusterLoadAssignment) :
    List XdsEndpointResource.Priority × ValidationErrors :=
  edsEntriesLoop res cla.endpoints 0 [] ⟨[]⟩

def edsErrorsAfterPriorities (res : String → Nat → Except String (String × Nat))
    (cla : ClusterLoadAssignment) : ValidationErrors :=
  checkEmptyPriorities (edsLoopOut res cla).1 0 (edsLoopOut res cla).2

def edsDropOut (res : String → Nat → Except String (String × Nat))
    (cla : ClusterLoadAssignment) : DropConfig × ValidationErrors :=
  match cla.policy with
  | none => (({} : DropConfig), edsErrorsAfterPriorities res cla)
  | some policy =>
    dropOverloadsLoop policy.drop_overloads 0 ({} : DropConfig)
      (edsErrorsAfterPriorities res cla)

theorem EdsResourceParse_eq (res : String → Nat → Except String (String × Nat))
    (cla : ClusterLoadAssignment) :
    EdsResourceParse res cla =
      if (edsDropOut res cla).2.ok then
        Except.ok ⟨(edsLoopOut res cla).1, (edsDropOut res cla).1⟩
      else Except.error ((edsDropOut res cla).2.status ("errors parsing EDS resource")) := by
  cases hp : cla.policy <;>
    simp [EdsResourceParse, edsLoopOut, edsErrorsAfterPriorities, edsDropOut, hp]

theorem evolves_edsDropOut (res : String → Nat → Except String (String × Nat))
    (cla : ClusterLoadAssignment) :
    Evolves (⟨[]⟩ : ValidationErrors) (edsDropOut res cla).2 := by
  have h1 : Evolves (⟨[]⟩ : ValidationErrors) (edsErrorsAfterPriorities res cla) :=
    (evolves_edsEntriesLoop res cla.endpoints 0 [] ⟨[]⟩).trans
      (evolves_checkEmptyPriorities (edsLoopOut res cla).1 0 (edsLoopOut res cla).2)
  unfold edsDropOut
  cases hp : cla.policy with
  | none => exact h1
  | some policy =>
    exact h1.trans (evolves_dropOverloadsLoop policy.drop_overloads 0 _ _)

/-
  Concrete inputs used by witnesses and counterexamples.
-/

/-- A resolver that accepts every host/port pair. -/
def okResolver : String → Nat → Except String (String × Nat) :=
  fun s p => Except.ok (s, p)

/-- A LocalityLbEndpoints entry whose weight wrapper carries 0. -/
def lleZeroWeight : LocalityLbEndpoints :=
  ⟨some ⟨0⟩, some ⟨("r"), ("z"), ("s")⟩, [], 0⟩

/-- An LbEndpoint whose health status is DRAINING (2). -/
def lbDraining : LbEndpoint :=
  ⟨2, none, none⟩

/-- A LocalityLbEndpoints entry with positive weight but no locality name. -/
def lleNoLocality : LocalityLbEndpoints :=
  ⟨some ⟨1⟩, none, [], 0⟩

/-- A ClusterLoadAssignment whose single entry is missing its locality
name, so parsing records exactly one validation error. -/
def claBadLocality : ClusterLoadAssignment :=
  ⟨("cluster1"), [lleNoLocality], none⟩

/-- A valid one-locality ClusterLoadAssignment. -/
def claOneLocality : ClusterLoadAssignment :=
  ⟨("cluster1"), [⟨some ⟨1⟩, some ⟨("r"), ("z"), ("s")⟩, [], 0⟩], none⟩

/-
  Claim theorems.
-/

/-- C4: Decode of bytes that fail the wire-format parse returns an
InvalidArgument failure whose message is exactly
`Can't parse ClusterLoadAssignment resource.` with the resource name
absent, while Decode of any wire-parsed message populates the resource
name (the cluster_name) whether or not semantic validation fails. -/
theorem c4_decode_contract (res : String → Nat → Except String (String × Nat)) :
    XdsEndpointResourceType.Decode res none =
      ⟨none,
       Except.error (StatusCode.kInvalidArgument,
         ("Can't parse ClusterLoadAssignment resource."))⟩ ∧
    ∀ cla : ClusterLoadAssignment,
      (XdsEndpointResourceType.Decode res (some cla)).name = some cla.cluster_name := by
  constructor
  · rfl
  · intro cla
    unfold XdsEndpointResourceType.Decode
    dsimp only
    cases EdsResourceParse res cla <;> rfl

/-- C5: a locality entry whose load-balancing weight is absent or 0 is
skipped by LocalityParse with no error and leaves the EDS loop state
unchanged, and an endpoint whose health status is neither UNKNOWN nor
HEALTHY is skipped by ServerAddressParse with no error. -/
theorem c5_skip_not_error (res : String → Nat → Except String (String × Nat))
    (path : String) (i : Nat) (lle : LocalityLbEndpoints)
    (priorities : List XdsEndpointResource.Priority) (lb : LbEndpoint)
    (errors : ValidationErrors) :
    ((lle.load_balancing_weight = none ∨ lle.load_balancing_weight = some ⟨0⟩) →
      LocalityParse res path lle errors = (none, errors) ∧
      edsEntryStep res i lle priorities errors = (priorities, errors)) ∧
    (lb.health_status ≠ envoy_UNKNOWN → lb.health_status ≠ envoy_HEALTHY →
      ServerAddressParse res path lb errors = (none, errors)) := by
  constructor
  · intro hw
    have hl : ∀ p : String, LocalityParse res p lle errors = (none, errors) := by
      intro p
      unfold LocalityParse
      dsimp only
      rcases hw with hw | hw <;> rw [hw] <;> simp
    refine ⟨hl path, ?_⟩
    unfold edsEntryStep
    dsimp only
    rw [hl (("endpoints[") ++ toString i ++ ("]"))]
  · intro h1 h2
    unfold ServerAddressParse
    dsimp only
    rw [if_pos ⟨h1, h2⟩]

theorem c5_skip_not_error_witness :
    LocalityParse okResolver ("endpoints[0]") lleZeroWeight ⟨[]⟩ = (none, ⟨[]⟩) ∧
    ServerAddressParse okResolver ("endpoints[0].lb_endpoints[0]") lbDraining ⟨[]⟩ =
      (none, ⟨[]⟩) :=
  ⟨((c5_skip_not_error okResolver ("endpoints[0]") 0 lleZeroWeight [] lbDraining ⟨[]⟩).1
      (Or.inr rfl)).1,
   (c5_skip_not_error okResolver ("endpoints[0].lb_endpoints[0]") 0 lleZeroWeight []
      lbDraining ⟨[]⟩).2 (by decide) (by decide)⟩

/-- A slot freshly created by growing the priorities vector is an empty
priority. -/
theorem freshSlotEmpty (priorities : List XdsEndpointResource.Priority) (k : Nat)
    (h : priorities.length ≤ k) :
    (priorities ++
        List.replicate (k + 1 - priorities.length)
          (⟨[]⟩ : XdsEndpointResource.Priority)).getD k ⟨[]⟩ =
      (⟨[]⟩ : XdsEndpointResource.Priority) := by
  rw [List.getD_eq_getElem?_getD]
  rw [List.getElem?_append_right h]
  rw [List.getElem?_replicate]
  rw [if_pos (by omega)]
  rfl

/-- LocalityParse only returns a locality when the sub-parse recorded no
new error (the error-count comparison at its end). -/
theorem localityParse_some_size (res : String → Nat → Except String (String × Nat))
    (path : String) (lle : LocalityLbEndpoints) (errors : ValidationErrors)
    (pl : ParsedLocality) (h : (LocalityParse res path lle errors).1 = some pl) :
    (LocalityParse res path lle errors).2.size = errors.size := by
  unfold LocalityParse at h ⊢
  dsimp only at h ⊢
  split at h
  · simp at h
  · next hw =>
    rw [if_neg hw]
    split at h
    · simp at h
    · next loc heq =>
      split at h
      · simp at h
      · next hsz =>
        rw [if_neg hsz]
        dsimp only
        omega

/-- Each EDS loop step either leaves the priorities untouched or recorded
no error while processing its entry. -/
theorem edsEntryStep_unchanged_or_clean
    (res : String → Nat → Except String (String × Nat)) (i : Nat)
    (lle : LocalityLbEndpoints) (priorities : List XdsEndpointResource.Priority)
    (errors : ValidationErrors) :
    (edsEntryStep res i lle priorities errors).1 = priorities ∨
    (edsEntryStep res i lle priorities errors).2.size = errors.size := by
  unfold edsEntryStep
  dsimp only
  split
  · left; rfl
  · next pl hpl =>
    by_cases hgrow : priorities.length < pl.priority + 1
    · simp only [if_pos hgrow]
      rw [freshSlotEmpty priorities pl.priority (by omega)]
      simp only [lookupLocality]
      right
      exact localityParse_some_size res _ lle errors pl hpl
    · simp only [if_neg hgrow]
      split
      · left; rfl
      · right
        exact localityParse_some_size res _ lle errors pl hpl

/-- C10: when a locality entry's sub-parse records any error (detected by
the error-count comparison), LocalityParse returns no locality, and the
EDS loop step leaves the priorities unchanged, so an erroring locality is
never inserted into any priority level. -/
theorem c10_erroring_locality_not_inserted
    (res : String → Nat → Except String (String × Nat)) (path : String)
    (i : Nat) (lle : LocalityLbEndpoints)
    (priorities : List XdsEndpointResource.Priority) (errors : ValidationErrors) :
    (∀ pl, (LocalityParse res path lle errors).1 = some pl →
      (LocalityParse res path lle errors).2.size = errors.size) ∧
    ((edsEntryStep res i lle priorities errors).2.size ≠ errors.size →
      (edsEntryStep res i lle priorities errors).1 = priorities) := by
  constructor
  · exact fun pl h => localityParse_some_size res path lle errors pl h
  · intro hne
    rcases edsEntryStep_unchanged_or_clean res i lle priorities errors with h | h
    · exact h
    · exact absurd h hne

theorem c10_erroring_locality_not_inserted_witness :
    (edsEntryStep okResolver 0 lleNoLocality [] ⟨[]⟩).1 =
      ([] : List XdsEndpointResource.Priority) :=
  (c10_erroring_locality_not_inserted okResolver ("endpoints[0]") 0 lleNoLocality [] ⟨[]⟩).2
    (by decide)

/-- C8: normalizing numerator N with denominator HUNDRED produces exactly
the same result (stored drop entry and errors) as normalizing the uint32
numerator 100*N with denominator TEN_THOUSAND; in particular the stored
capped parts-per-million values agree. -/
theorem c8_denominator_scaling (path c : String) (n : Nat) (cfg : DropConfig)
    (errors : ValidationErrors) :
    DropParseAndAppend path ⟨c, some ⟨n, FractionalPercent_HUNDRED⟩⟩ cfg errors =
      DropParseAndAppend path
        ⟨c, some ⟨100 * n % 4294967296, FractionalPercent_TEN_THOUSAND⟩⟩ cfg errors := by
  unfold DropParseAndAppend
  dsimp only
  have hTH : ¬ (FractionalPercent_TEN_THOUSAND = FractionalPercent_HUNDRED) := by decide
  have harith : n * 10000 % 4294967296 = (100 * n % 4294967296) * 100 % 4294967296 := by
    rw [Nat.mod_mul_mod]
    have h2 : 100 * n * 100 = n * 10000 := by ring
    rw [h2]
  rw [if_pos rfl, if_neg hTH, if_pos rfl, harith]

/-- C2 counterexample: with numerator 101 and denominator HUNDRED the
stored value is the 1,000,000 cap, not 101*10000 = 1,010,000, so the
claimed equality `stored = numerator*10000` fails. -/
theorem c2_counterexample :
    (DropParseAndAppend ("policy.drop_overloads[0]")
        ⟨("cat"), some ⟨101, FractionalPercent_HUNDRED⟩⟩ ({} : DropConfig)
        ⟨[]⟩).1.drop_category_list = [⟨("cat"), 1000000⟩] ∧
    (1000000 : Nat) ≠ 101 * 10000 := by
  constructor
  · rfl
  · decide

/-- C2 amended: the stored parts-per-million is the denominator scaling
(HUNDRED: x10000, TEN_THOUSAND: x100, MILLION and unknown: x1), computed
in uint32 arithmetic (modulo 2^32) and then capped at 1,000,000, so it
never exceeds 1,000,000; an unknown denominator additionally records the
`unknown denominator type` field error, while a known denominator with a
non-empty category records no error. -/
theorem c2_drop_normalization (path c : String) (n : Nat) (den : Int)
    (cfg : DropConfig) (errors : ValidationErrors) :
    (DropParseAndAppend path ⟨c, some ⟨n, den⟩⟩ cfg errors).1.drop_category_list =
      cfg.drop_category_list ++
        [⟨c, if den = FractionalPercent_HUNDRED then min (n * 10000 % 4294967296) 1000000
             else if den = FractionalPercent_TEN_THOUSAND then min (n * 100 % 4294967296) 1000000
             else min n 1000000⟩] ∧
    (if den = FractionalPercent_HUNDRED then min (n * 10000 % 4294967296) 1000000
     else if den = FractionalPercent_TEN_THOUSAND then min (n * 100 % 4294967296) 1000000
     else min n 1000000) ≤ 1000000 ∧
    ((den ≠ FractionalPercent_HUNDRED ∧ den ≠ FractionalPercent_TEN_THOUSAND ∧
        den ≠ FractionalPercent_MILLION) →
      (DropParseAndAppend path ⟨c, some ⟨n, den⟩⟩ cfg errors).2.hasError
        (path ++ (".drop_percentage.denominator")) ("unknown denominator type") = true) ∧
    (c ≠ ("" : String) →
      (den = FractionalPercent_HUNDRED ∨ den = FractionalPercent_TEN_THOUSAND ∨
        den = FractionalPercent_MILLION) →
      (DropParseAndAppend path ⟨c, some ⟨n, den⟩⟩ cfg errors).2 = errors) := by
  refine ⟨?_, ?_, ?_, ?_⟩
  · unfold DropParseAndAppend DropConfig.addCategory
    dsimp only
    by_cases h0 : den = FractionalPercent_HUNDRED
    · simp [h0, FractionalPercent_HUNDRED, FractionalPercent_TEN_THOUSAND]
    · by_cases h1 : den = FractionalPercent_TEN_THOUSAND
      · simp [h0, h1, FractionalPercent_HUNDRED, FractionalPercent_TEN_THOUSAND]
      · by_cases h2 : den = FractionalPercent_MILLION
        · simp [h0, h1, h2, FractionalPercent_HUNDRED, FractionalPercent_TEN_THOUSAND,
            FractionalPercent_MILLION]
        · simp [h0, h1, h2]
  · split_ifs <;> exact Nat.min_le_right _ _
  · intro hden
    obtain ⟨hd0, hd1, hd2⟩ := hden
    unfold DropParseAndAppend
    dsimp only
    simp only [if_neg hd0, if_neg hd1, if_neg hd2]
    exact hasError_addError_self _ _ _
  · intro hc hden
    unfold DropParseAndAppend
    dsimp only
    rw [if_neg hc]
    rcases hden with h | h | h <;>
      simp [h, FractionalPercent_HUNDRED, FractionalPercent_TEN_THOUSAND,
        FractionalPercent_MILLION]

theorem c2_drop_normalization_witness :
    (DropParseAndAppend ("p") ⟨("x"), some ⟨3, 7⟩⟩ ({} : DropConfig) ⟨[]⟩).2.hasError
      (("p") ++ (".drop_percentage.denominator")) ("unknown denominator type") = true ∧
    (DropParseAndAppend ("p") ⟨("x"), some ⟨3, FractionalPercent_MILLION⟩⟩ ({} : DropConfig)
        ⟨[]⟩).2 = (⟨[]⟩ : ValidationErrors) :=
  ⟨(c2_drop_normalization ("p") ("x") 3 7 {} ⟨[]⟩).2.2.1 (by decide),
   (c2_drop_normalization ("p") ("x") 3 FractionalPercent_MILLION {} ⟨[]⟩).2.2.2 (by decide)
     (Or.inr (Or.inr rfl))⟩

/-- C9: durations with seconds in [0, 315576000000] and nanos in
[0, 999999999] parse with no error to exactly seconds*1000 + nanos/1000000
milliseconds, and the out-of-range pair seconds=-1, nanos=-2 records both
range errors as separate field errors in the same call, rendered in the
exact aggregated format observed by the tests. -/
theorem c9_duration_parsing (s n : Int) (e : ValidationErrors) :
    (0 ≤ s → s ≤ 315576000000 → 0 ≤ n → n ≤ 999999999 →
      ParseDuration s n e = (s * 1000 + n / 1000000, e)) ∧
    (ParseDuration (-1) (-2) ⟨[]⟩).2.status ("validation failed") =
      ("validation failed: [field:nanos error:value must be in the range [0, 999999999]; field:seconds error:value must be in the range [0, 315576000000]]") := by
  constructor
  · intro h1 h2 h3 h4
    unfold ParseDuration
    dsimp only
    rw [if_neg (by omega), if_neg (by omega)]
  · have hlt : ("nanos" : String) < "seconds" := by
      rw [String.lt_iff_toList_lt]
      decide
    have h1 : (ParseDuration (-1) (-2) ⟨[]⟩).2 =
        ((⟨[]⟩ : ValidationErrors).addError ("seconds")
            ("value must be in the range [0, 315576000000]")).addError ("nanos")
          ("value must be in the range [0, 999999999]") := by
      unfold ParseDuration
      dsimp only
      rw [if_pos (by decide), if_pos (by decide)]
    have h2 : ((⟨[]⟩ : ValidationErrors).addError ("seconds")
          ("value must be in the range [0, 315576000000]")).addError ("nanos")
          ("value must be in the range [0, 999999999]") =
        ⟨[(("nanos"), [("value must be in the range [0, 999999999]")]),
          (("seconds"), [("value must be in the range [0, 315576000000]")])]⟩ := by
      unfold ValidationErrors.addError
      dsimp only
      rw [show insertError [] ("seconds") ("value must be in the range [0, 315576000000]") =
        [(("seconds"), [("value must be in the range [0, 315576000000]")])] from rfl]
      simp only [insertError]
      rw [if_neg (by decide), if_pos hlt]
    rw [h1, h2]
    rfl

theorem c9_duration_parsing_witness :
    ParseDuration 1 2000000 ⟨[]⟩ = (1002, ⟨[]⟩) := by
  have h := (c9_duration_parsing 1 2000000 ⟨[]⟩).1 (by decide) (by decide) (by decide)
    (by decide)
  rw [h]
  norm_num

theorem shouldDropList_none_iff (cats : List DropCategory) :
    ∀ draws : Nat → Nat,
      (ShouldDropList cats draws = none ↔
        ∀ (j : Nat) (hj : j < cats.length),
          ¬ (draws j % 4294967296 % 1000000 < (cats.get ⟨j, hj⟩).parts_per_million)) := by
  induction cats with
  | nil =>
    intro draws
    simp [ShouldDropList]
  | cons c rest ih =>
    intro draws
    unfold ShouldDropList
    dsimp only
    split
    · next hhit =>
      constructor
      · intro h
        exact (Option.some_ne_none _ h).elim
      · intro hall
        exact absurd hhit (hall 0 (Nat.succ_pos _))
    · next hmiss =>
      rw [ih (fun k => draws (k + 1))]
      constructor
      · intro hall j hj
        cases j with
        | zero => exact hmiss
        | succ k => exact hall k (Nat.lt_of_succ_lt_succ hj)
      · intro hall j hj
        exact hall (j + 1) (Nat.succ_lt_succ hj)

theorem shouldDropList_some (cats : List DropCategory) :
    ∀ (draws : Nat → Nat) (name : String),
      ShouldDropList cats draws = some name →
      ∃ (j : Nat) (hj : j < cats.length),
        draws j % 4294967296 % 1000000 < (cats.get ⟨j, hj⟩).parts_per_million ∧
        name = (cats.get ⟨j, hj⟩).name ∧
        ∀ (k : Nat), k < j → ∀ (hk : k < cats.length),
          ¬ (draws k % 4294967296 % 1000000 < (cats.get ⟨k, hk⟩).parts_per_million) := by
  induction cats with
  | nil =>
    intro draws name h
    simp [ShouldDropList] at h
  | cons c rest ih =>
    intro draws name h
    unfold ShouldDropList at h
    dsimp only at h
    split at h
    · next hhit =>
      refine ⟨0, Nat.succ_pos _, hhit, (Option.some.inj h).symm, ?_⟩
      intro k hk
      exact absurd hk (Nat.not_lt_zero k)
    · next hmiss =>
      obtain ⟨j, hj, hhit, hname, hmin⟩ := ih (fun k => draws (k + 1)) name h
      refine ⟨j + 1, Nat.succ_lt_succ hj, hhit, hname, ?_⟩
      intro k hk hk2
      cases k with
      | zero => exact hmiss
      | succ k2 => exact hmin k2 (Nat.lt_of_succ_lt_succ hk) (Nat.lt_of_succ_lt_succ hk2)

/-- C3: ShouldDrop walks the drop categories in stored order, drawing one
fresh value of the random stream per category (cast to uint32 and reduced
modulo 1,000,000 into [0, 1000000)); it returns the name of the first
category whose parts-per-million threshold exceeds that category's own
draw, and returns no drop exactly when no category's threshold exceeds its
draw. -/
theorem c3_should_drop_semantics (cfg : DropConfig) (draws : Nat → Nat) :
    (DropConfig.shouldDrop cfg draws = none ↔
      ∀ (j : Nat) (hj : j < cfg.drop_category_list.length),
        ¬ (draws j % 4294967296 % 1000000 <
            (cfg.drop_category_list.get ⟨j, hj⟩).parts_per_million)) ∧
    (∀ name : String, DropConfig.shouldDrop cfg draws = some name →
      ∃ (j : Nat) (hj : j < cfg.drop_category_list.length),
        draws j % 4294967296 % 1000000 <
          (cfg.drop_category_list.get ⟨j, hj⟩).parts_per_million ∧
        name = (cfg.drop_category_list.get ⟨j, hj⟩).name ∧
        ∀ (k : Nat), k < j → ∀ (hk : k < cfg.drop_category_list.length),
          ¬ (draws k % 4294967296 % 1000000 <
              (cfg.drop_category_list.get ⟨k, hk⟩).parts_per_million)) :=
  ⟨shouldDropList_none_iff cfg.drop_category_list draws,
   fun name h => shouldDropList_some cfg.drop_category_list draws name h⟩

/-- A two-category drop config used by the C3 witness. -/
def dropCfgW : DropConfig := ⟨[⟨("lb"), 0⟩, ⟨("throttle"), 700000⟩], false⟩

theorem c3_should_drop_semantics_witness :
    ∃ (j : Nat) (hj : j < dropCfgW.drop_category_list.length),
      (123456 + j) % 4294967296 % 1000000 <
        (dropCfgW.drop_category_list.get ⟨j, hj⟩).parts_per_million ∧
      ("throttle") = (dropCfgW.drop_category_list.get ⟨j, hj⟩).name ∧
      ∀ (k : Nat), k < j → ∀ (hk : k < dropCfgW.drop_category_list.length),
        ¬ ((123456 + k) % 4294967296 % 1000000 <
            (dropCfgW.drop_category_list.get ⟨k, hk⟩).parts_per_million) :=
  (c3_should_drop_semantics dropCfgW (fun k => 123456 + k)).2 ("throttle") rfl

/-- C6: when a parsed locality's name already exists in its priority's
locality map, the EDS loop step keeps the priorities unchanged (the first
occurrence wins, the duplicate is not inserted) and records an error
naming both the duplicated locality and the priority index. -/
theorem c6_duplicate_locality (res : String → Nat → Except String (String × Nat))
    (i : Nat) (lle : LocalityLbEndpoints)
    (priorities : List XdsEndpointResource.Priority) (errors : ValidationErrors)
    (pl : ParsedLocality) (e2 : ValidationErrors)
    (loc : XdsEndpointResource.Priority.Locality)
    (hparse : LocalityParse res (("endpoints[") ++ toString i ++ ("]")) lle errors =
      (some pl, e2))
    (hdup : lookupLocality (priorities.getD pl.priority ⟨[]⟩).localities
      pl.locality.name = some loc) :
    edsEntryStep res i lle priorities errors =
      (priorities,
       e2.addError (("endpoints[") ++ toString i ++ ("]"))
         (("duplicate locality ") ++ pl.locality.name.asHumanReadableString ++
          (" found in priority ") ++ toString pl.priority)) := by
  have hlt : pl.priority < priorities.length := by
    by_contra hge
    rw [List.getD_eq_getElem?_getD, List.getElem?_eq_none (by omega),
      Option.getD_none] at hdup
    simp [lookupLocality] at hdup
  unfold edsEntryStep
  dsimp only
  rw [hparse]
  dsimp only
  rw [if_neg (by omega)]
  rw [hdup]

/-- Locality name used by the C6 witness. -/
def locNameW : XdsLocalityName := ⟨("r"), ("z"), ("s")⟩

/-- Existing locality used by the C6 witness. -/
def locW : XdsEndpointResource.Priority.Locality := ⟨locNameW, 5, []⟩

/-- Priorities already holding locNameW at priority 0, for the C6 witness. -/
def prioritiesW : List XdsEndpointResource.Priority := [⟨[(locNameW, locW)]⟩]

/-- An entry that parses to the same locality name at priority 0. -/
def lleDupW : LocalityLbEndpoints := ⟨some ⟨2⟩, some ⟨("r"), ("z"), ("s")⟩, [], 0⟩

theorem c6_duplicate_locality_witness :
    edsEntryStep okResolver 1 lleDupW prioritiesW ⟨[]⟩ =
      (prioritiesW,
       (⟨[]⟩ : ValidationErrors).addError (("endpoints[") ++ toString 1 ++ ("]"))
         (("duplicate locality ") ++ locNameW.asHumanReadableString ++
          (" found in priority ") ++ toString 0)) :=
  c6_duplicate_locality okResolver 1 lleDupW prioritiesW ⟨[]⟩
    ⟨0, ⟨locNameW, 2, []⟩⟩ ⟨[]⟩ locW (by rfl) (by rfl)

theorem checkEmpty_hasError_aux (priorities : List XdsEndpointResource.Priority) :
    ∀ (i : Nat) (errors : ValidationErrors) (j : Nat) (hj : j < priorities.length),
      (priorities.get ⟨j, hj⟩).localities = [] →
      (checkEmptyPriorities priorities i errors).hasError ("endpoints")
        (("priority ") ++ toString (i + j) ++ (" empty")) = true := by
  induction priorities with
  | nil =>
    intro i errors j hj
    exact absurd hj (by simp)
  | cons p rest ih =>
    intro i errors j hj hloc
    unfold checkEmptyPriorities
    dsimp only
    cases j with
    | zero =>
      have hloc2 : p.localities = [] := hloc
      have hemp : p.localities.isEmpty = true := by rw [hloc2]; rfl
      rw [if_pos hemp, Nat.add_zero]
      exact (evolves_checkEmptyPriorities rest (i + 1) _).hasError_le _ _
        (hasError_addError_self errors _ _)
    | succ j2 =>
      have harith : i + (j2 + 1) = (i + 1) + j2 := by omega
      rw [harith]
      have hloc2 : (rest.get ⟨j2, Nat.lt_of_succ_lt_succ hj⟩).localities = [] := hloc
      split
      · exact ih (i + 1) _ j2 (Nat.lt_of_succ_lt_succ hj) hloc2
      · exact ih (i + 1) _ j2 (Nat.lt_of_succ_lt_succ hj) hloc2

theorem hasError_edsDropOut (res : String → Nat → Except String (String × Nat))
    (cla : ClusterLoadAssignment) (p m : String)
    (h : (edsErrorsAfterPriorities res cla).hasError p m = true) :
    (edsDropOut res cla).2.hasError p m = true := by
  unfold edsDropOut
  split
  · exact h
  · exact (evolves_dropOverloadsLoop _ 0 _ _).hasError_le p m h

/-- C7: an empty priority level at index j makes the scan record
`priority j empty` under the `endpoints` scope, and every successfully
returned EDS resource has only non-empty priority levels (a parse with any
recorded error returns failure with no partial resource). -/
theorem c7_empty_priority_invariant :
    (∀ (priorities : List XdsEndpointResource.Priority) (errors : ValidationErrors)
       (j : Nat) (hj : j < priorities.length),
      (priorities.get ⟨j, hj⟩).localities = [] →
      (checkEmptyPriorities priorities 0 errors).hasError ("endpoints")
        (("priority ") ++ toString j ++ (" empty")) = true) ∧
    (∀ (res : String → Nat → Except String (String × Nat))
       (cla : ClusterLoadAssignment) (r : XdsEndpointResource),
      EdsResourceParse res cla = Except.ok r →
      ∀ (j : Nat) (hj : j < r.priorities.length),
        (r.priorities.get ⟨j, hj⟩).localities ≠ []) := by
  constructor
  · intro priorities errors j hj hloc
    have h := checkEmpty_hasError_aux priorities 0 errors j hj hloc
    rw [Nat.zero_add] at h
    exact h
  · intro res cla r hok j hj hloc
    rw [EdsResourceParse_eq] at hok
    split at hok
    · next hoke =>
      injection hok with hr
      subst hr
      have h1 := checkEmpty_hasError_aux (edsLoopOut res cla).1 0 (edsLoopOut res cla).2
        j hj hloc
      rw [Nat.zero_add] at h1
      have h2 := hasError_edsDropOut res cla ("endpoints")
        (("priority ") ++ toString j ++ (" empty")) h1
      have h3 := hasError_ne_nil _ _ _ h2
      unfold ValidationErrors.ok at hoke
      rw [List.isEmpty_iff] at hoke
      exact h3 hoke
    · exact Except.noConfusion hok

theorem c7_empty_priority_invariant_witness :
    (checkEmptyPriorities [(⟨[]⟩ : XdsEndpointResource.Priority)] 0 ⟨[]⟩).hasError
      ("endpoints") (("priority ") ++ toString 0 ++ (" empty")) = true :=
  c7_empty_priority_invariant.1 [⟨[]⟩] ⟨[]⟩ 0 (by decide) rfl

set_option maxRecDepth 10000 in
/-- C1 counterexample: on this input the EDS decode failure message is the
string prefixed `errors parsing EDS resource: `, which differs from the
claimed byte-exact `errors validating <Type> resource: ` rendering of the
same field errors, so the claimed format fails for the EDS resource type. -/
theorem c1_counterexample :
    (XdsEndpointResourceType.Decode okResolver (some claBadLocality)).resource =
      Except.error (StatusCode.kInvalidArgument,
        ("errors parsing EDS resource: [field:endpoints[0].locality error:field not present]")) ∧
    ("errors parsing EDS resource: [field:endpoints[0].locality error:field not present]") ≠
      ("errors validating ClusterLoadAssignment resource: [field:endpoints[0].locality error:field not present]") ∧
    ("errors parsing EDS resource: [field:endpoints[0].locality error:field not present]") ≠
      ("errors validating EDS resource: [field:endpoints[0].locality error:field not present]") := by
  refine ⟨?_, ?_, ?_⟩
  · rfl
  · decide
  · decide

/-- C1 amended: for the EDS resource type, every validation-failure message
is exactly the prefix `errors parsing EDS resource: ` followed by
`[field:<path> error:<msgs>...]` with the field paths sorted
lexicographically, each field's messages joined by `, `, and distinct
fields joined by `; `. -/
theorem c1_eds_error_format (res : String → Nat → Except String (String × Nat))
    (cla : ClusterLoadAssignment) (msg : String)
    (herr : EdsResourceParse res cla = Except.error msg) :
    ∃ fe : List (String × List String),
      fe ≠ [] ∧
      fe.Pairwise (fun a b => a.1 < b.1) ∧
      (∀ pm ∈ fe, pm.2 ≠ []) ∧
      msg = ("errors parsing EDS resource") ++ (": [") ++
        String.intercalate ("; ")
          (fe.map fun pm =>
            ("field:") ++ pm.1 ++ (" error:") ++ String.intercalate (", ") pm.2) ++
        ("]") := by
  rw [EdsResourceParse_eq] at herr
  split at herr
  · exact Except.noConfusion herr
  · next hnok =>
    injection herr with hmsg
    refine ⟨(edsDropOut res cla).2.field_errors, ?_, ?_, ?_, ?_⟩
    · intro hnil
      apply hnok
      unfold ValidationErrors.ok
      rw [hnil]
      rfl
    · exact ((evolves_edsDropOut res cla).inv VEInv_empty).1
    · exact ((evolves_edsDropOut res cla).inv VEInv_empty).2
    · rw [← hmsg]
      rfl

set_option maxRecDepth 10000 in
theorem c1_eds_error_format_witness :
    ∃ fe : List (String × List String),
      fe ≠ [] ∧
      fe.Pairwise (fun a b => a.1 < b.1) ∧
      (∀ pm ∈ fe, pm.2 ≠ []) ∧
      ("errors parsing EDS resource: [field:endpoints[0].locality error:field not present]") =
        ("errors parsing EDS resource") ++ (": [") ++
        String.intercalate ("; ")
          (fe.map fun pm =>
            ("field:") ++ pm.1 ++ (" error:") ++ String.intercalate (", ") pm.2) ++
        ("]") :=
  c1_eds_error_format okResolver claBadLocality
    ("errors parsing EDS resource: [field:endpoints[0].locality error:field not present]")
    (by rfl)

end GrpcCore
